import Mathlib

/-!
# Verification of the kumo component-registry generator

Shallow embedding of the build-time component metadata/registry generator
(`generate-registry` script) and of the styles build script of the kumo
repository, together with proofs of the spec's claims about them.

Modelling conventions:
* JavaScript objects used as string-keyed records are modelled as association
  lists `List (String × α)`; `objGet` is property access, `objSet` is property
  assignment (replace in place if the key exists, else append — JS insertion
  order), `objMerge` is object spread `\x7b...a, ...b\x7d`.
* JS truthiness on optional strings (`if (x)`) is `x` present and nonempty;
  arrays and objects are truthy whenever present.
* `localeCompare`-based sorting is modelled with code-point order on `String`.
* Percent-decoding of `$ref` names (`decodeURIComponent`) is omitted: the ref
  names exercised here contain no escapes.
-/

namespace Kumo

/-- JS property access `o[k]` on an object modelled as an association list. -/
def objGet : List (String × α) → String → Option α
  | [], _ => none
  | kv :: rest, k => if kv.1 = k then some kv.2 else objGet rest k

/-- JS property assignment `o[k] = v`: replace the entry in place when the key
exists (JS keeps the original insertion position; object keys are unique),
append otherwise. -/
def objSet : List (String × α) → String → α → List (String × α)
  | [], k, v => [(k, v)]
  | kv :: rest, k, v => if kv.1 = k then (k, v) :: rest else kv :: objSet rest k v

/-- JS object spread `\x7b...a, ...b\x7d`: keys of `b` override those of `a`,
new keys are appended in order. -/
def objMerge (a b : List (String × α)) : List (String × α) :=
  b.foldl (fun acc kv => objSet acc kv.1 kv.2) a

/-- JS `String.prototype.includes` (for nonempty patterns). -/
def strIncludes (s pat : String) : Bool :=
  (s.splitOn pat).length != 1

/-- Last segment of a `$ref` path: `ref.split("/").pop()` (with `!`). -/
def refLastSegment (ref : String) : String :=
  (ref.splitOn "/").getLastD ""

/-- `ref.split("/").pop() || dflt`: the last segment, or the default when it
is empty (JS `||` treats the empty string as falsy). -/
def refNameOr (ref dflt : String) : String :=
  if refLastSegment ref = "" then dflt else refLastSegment ref

/-- JSON Schema `type` field: either a plain string or an array of strings
(the distinction matters for the `def.type === "array"` check). -/
inductive StrOrList where
  | str (s : String)
  | list (l : List String)
deriving DecidableEq, Repr

/-- The subset of `ts-json-schema-generator`'s `Definition` exercised by the
registry generator: `$ref`, `enum`, `type`, `items`, `anyOf`, `oneOf`,
`allOf`, `properties`, `required`, `description`. -/
inductive Defn where
  | mk (ref : Option String)
       (enm : Option (List String))
       (ty : Option StrOrList)
       (items : Option Defn)
       (anyOf : Option (List Defn))
       (oneOf : Option (List Defn))
       (allOf : Option (List Defn))
       (properties : Option (List (String × Defn)))
       (required : Option (List String))
       (descr : Option String)
deriving Repr

def Defn.ref : Defn → Option String
  | .mk r _ _ _ _ _ _ _ _ _ => r

def Defn.enm : Defn → Option (List String)
  | .mk _ e _ _ _ _ _ _ _ _ => e

def Defn.ty : Defn → Option StrOrList
  | .mk _ _ t _ _ _ _ _ _ _ => t

def Defn.items : Defn → Option Defn
  | .mk _ _ _ i _ _ _ _ _ _ => i

def Defn.anyOf : Defn → Option (List Defn)
  | .mk _ _ _ _ a _ _ _ _ _ => a

def Defn.oneOf : Defn → Option (List Defn)
  | .mk _ _ _ _ _ o _ _ _ _ => o

def Defn.allOf : Defn → Option (List Defn)
  | .mk _ _ _ _ _ _ a _ _ _ => a

def Defn.properties : Defn → Option (List (String × Defn))
  | .mk _ _ _ _ _ _ _ p _ _ => p

def Defn.required : Defn → Option (List String)
  | .mk _ _ _ _ _ _ _ _ r _ => r

def Defn.descr : Defn → Option String
  | .mk _ _ _ _ _ _ _ _ _ d => d

/-- A `Defn` with every field absent; concrete test definitions are built by
overriding fields of this one. -/
def Defn.empty : Defn :=
  .mk none none none none none none none none none none

/-- The `anyOf`/`oneOf` rendering of `jsonSchemaTypeToString` applied to the
already-converted member type strings: drop `"undefined"`/`"null"`, collapse
to `"ReactNode"` when a member mentions React, else join with `" | "`. -/
def jstsUnion (memberTypes : List String) : String :=
  let typeStrings := memberTypes.filter (fun t => t != "undefined" && t != "null")
  if typeStrings.any (fun t => strIncludes t "React") then
    "ReactNode"
  else
    String.intercalate " | " typeStrings

mutual
/-- `jsonSchemaTypeToString(def)`: render a schema definition as the semantic
type string used in `PropSchema.type`. Mirrors the source's cascade:
`$ref` → `enum` → `array` → `anyOf`/`oneOf` → `type` → `"unknown"`. -/
def jsonSchemaTypeToString : Defn → String
  | .mk ref enm ty items anyOf oneOf _ _ _ _ =>
    match ref with
    | some r =>
      let refName := refNameOr r "unknown"
      if strIncludes refName "ReactNode" || strIncludes refName "ReactElement" then
        "ReactNode"
      else
        refName
    | none =>
      match enm with
      | some _ => "enum"
      | none =>
        if ty = some (.str "array") then
          let itemType :=
            match items with
            | some i => jsonSchemaTypeToString i
            | none => "unknown"
          itemType ++ "[]"
        else
          match anyOf with
          | some types => jstsUnion (jstsList types)
          | none =>
            match oneOf with
            | some types => jstsUnion (jstsList types)
            | none =>
              match ty with
              | some (.list l) => String.intercalate " | " l
              | some (.str s) => s
              | none => "unknown"

termination_by d => sizeOf d
decreasing_by all_goals (simp_wf; try omega)

/-- `types.map(t => jsonSchemaTypeToString(t))` for union members. -/
def jstsList : List Defn → List String
  | [] => []
  | d :: rest => jsonSchemaTypeToString d :: jstsList rest
termination_by l => sizeOf l
decreasing_by all_goals (simp_wf; try omega)
end

/-- `resolveRef(def, allDefinitions)`: follow a single `$ref` into the
definitions table, returning the original definition when there is no `$ref`,
no table, or no matching entry. -/
def resolveRef (d : Defn) (allDefinitions : Option (List (String × Defn))) : Defn :=
  match d.ref, allDefinitions with
  | some r, some defs =>
    match objGet defs (refNameOr r "") with
    | some resolved => resolved
    | none => d
  | _, _ => d

/-- One option of a variant table (`\x7bclasses, description, stateClasses\x7d`). -/
structure VariantOption where
  description : Option String := none
  classes : Option String := none
  stateClasses : Option (List (String × String)) := none
deriving DecidableEq, Repr

/-- A variant table: ordered map option-key → option payload. -/
abbrev VariantTable := List (String × VariantOption)

/-- One property of a component's public interface (`PropSchema` of
`types.ts`, reconstructed from its uses in the generator). Fields absent in
the emitted JSON are `none`. -/
structure PropSchema where
  type : String
  required : Option Bool := none
  optional : Option Bool := none
  description : Option String := none
  values : Option (List String) := none
  descriptions : Option (List (String × String)) := none
  classes : Option (List (String × String)) := none
  stateClasses : Option (List (String × List (String × String))) := none
  default : Option String := none
deriving DecidableEq, Repr

/-- `convertToPropSchema`, lines 213–221: exactly one of `required: true` /
`optional: true` is set on the fresh schema. -/
def applyRequiredFlag (required : Bool) (p : PropSchema) : PropSchema :=
  if required then { p with required := some true }
  else { p with optional := some true }

/-- `convertToPropSchema`, lines 223–225: `if (def.description)` (JS string
truthiness: present and nonempty). -/
def applyDescription (d : Defn) (p : PropSchema) : PropSchema :=
  match d.descr with
  | some s => if s ≠ "" then { p with description := some s } else p
  | none => p

/-- `convertToPropSchema`, lines 227–235: enum detection on the original
definition, then on the `$ref`-resolved one. -/
def applyEnum (d resolvedDef : Defn) (p : PropSchema) : PropSchema :=
  match d.enm with
  | some vs => { p with values := some vs, type := "enum" }
  | none =>
    match resolvedDef.enm with
    | some vs => { p with values := some vs, type := "enum" }
    | none => p

/-- The `descriptions` record built by the variant-enrichment loop:
`if (val.description) descriptions[key] = val.description`. -/
def variantDescriptions (variantDef : VariantTable) : List (String × String) :=
  variantDef.filterMap (fun kv =>
    match kv.2.description with
    | some s => if s ≠ "" then some (kv.1, s) else none
    | none => none)

/-- The `classes` record built by the variant-enrichment loop. -/
def variantClasses (variantDef : VariantTable) : List (String × String) :=
  variantDef.filterMap (fun kv =>
    match kv.2.classes with
    | some s => if s ≠ "" then some (kv.1, s) else none
    | none => none)

/-- The `stateClassesMap` record built by the variant-enrichment loop
(`val.stateClasses` is an object, hence truthy whenever present). -/
def variantStateClasses (variantDef : VariantTable) :
    List (String × List (String × String)) :=
  variantDef.filterMap (fun kv =>
    match kv.2.stateClasses with
    | some m => some (kv.1, m)
    | none => none)

/-- `convertToPropSchema`, lines 237–268: when the prop name is a key of the
variant tables, overwrite `type`/`values` and attach the non-empty
description/class/state-class maps. -/
def applyVariantEnrichment (propName : String)
    (variants : Option (List (String × VariantTable))) (p : PropSchema) : PropSchema :=
  match variants.bind (fun vs => objGet vs propName) with
  | some variantDef =>
    { p with
        type := "enum"
        values := some (variantDef.map (fun kv => kv.1))
        descriptions :=
          if (variantDescriptions variantDef).length > 0 then
            some (variantDescriptions variantDef)
          else p.descriptions
        classes :=
          if (variantClasses variantDef).length > 0 then
            some (variantClasses variantDef)
          else p.classes
        stateClasses :=
          if (variantStateClasses variantDef).length > 0 then
            some (variantStateClasses variantDef)
          else p.stateClasses }
  | none => p

/-- `convertToPropSchema`, lines 270–273: `if (defaults && propName in
defaults) prop.default = defaults[propName]` (key presence, not truthiness). -/
def applyDefault (propName : String) (defaults : Option (List (String × String)))
    (p : PropSchema) : PropSchema :=
  match defaults.bind (fun ds => objGet ds propName) with
  | some d => { p with default := some d }
  | none => p

/-- `convertToPropSchema(propName, def, required, variants, defaults,
allDefinitions)`: build one `PropSchema`, applying the source's sequential
mutations in order. -/
def convertToPropSchema (propName : String) (d : Defn) (required : Bool)
    (variants : Option (List (String × VariantTable)))
    (defaults : Option (List (String × String)))
    (allDefinitions : Option (List (String × Defn))) : PropSchema :=
  let resolvedDef := resolveRef d allDefinitions
  applyDefault propName defaults
    (applyVariantEnrichment propName variants
      (applyEnum d resolvedDef
        (applyDescription d
          (applyRequiredFlag required { type := jsonSchemaTypeToString d }))))

/-- CLI flags of the generator (`parseCLIFlags`). -/
structure CLIFlags where
  includeInheritedProps : Bool
  noCache : Bool
  verbose : Bool
deriving DecidableEq, Repr

/-- A discovered unit of work (`ComponentConfig` of `types.ts`, reconstructed
from its uses in the generator): identity, source location, declared props
type name, variant tables, default-variant selections, optional explicit
examples. -/
structure ComponentConfig where
  name : String
  dirName : String
  sourceDir : String
  sourceFile : String
  propsType : Option String := none
  type : String
  category : String
  description : String
  variants : List (String × VariantTable)
  defaults : List (String × String)
  examples : Option (List String) := none
  baseStyles : Option (List String) := none
deriving Repr

/-- `getPropsType(config)`: `config.propsType ?? `${config.name}Props``. -/
def getPropsType (config : ComponentConfig) : String :=
  config.propsType.getD (config.name ++ "Props")

/-- The schema produced by `tsj.createGenerator(...).createSchema(propsType)`:
its `definitions` table. The `ts-json-schema-generator` call itself is an
external library invocation; the generator consumes only `definitions`. -/
structure TsjSchema where
  definitions : List (String × Defn)
deriving Repr

/-- The `$ref`-following loop of `generatePropsFromType` (lines 320–331):
follow the chain while the definition is a bare `$ref` with no
`properties`/`allOf`/`anyOf`/`oneOf`, stopping when a name is missing from
the table. The source's `while` loop is fuelled here; real schemas have
acyclic ref chains, which the caller's fuel (table size + 1) covers. -/
def followRefChain (defs : List (String × Defn)) : Nat → Defn → Defn
  | 0, d => d
  | fuel + 1, d =>
    match d.ref with
    | some r =>
      if d.properties.isSome || d.allOf.isSome || d.anyOf.isSome || d.oneOf.isSome then
        d
      else
        match objGet defs (refLastSegment r) with
        | some refDef => followRefChain defs fuel refDef
        | none => d
    | none => d

/-- The loop body of `collectFromParts` (lines 335–368), threading the
`properties`/`required` accumulators of the source's `for` loop. Nested
`allOf` parts of referenced definitions are collected recursively starting
from empty accumulators and merged in, exactly as the source does; the
recursion into nested parts is fuelled (real schemas nest acyclically). -/
def collectFromPartsLoop (defs : List (String × Defn)) :
    Nat → List Defn → List (String × Defn) → List String →
    (List (String × Defn)) × List String
  | _, [], props, req => (props, req)
  | fuel, part :: rest, props, req =>
    match part.ref with
    | some r =>
      match objGet defs (refLastSegment r) with
      | some refDef =>
        let props1 :=
          match refDef.properties with
          | some ps => objMerge props ps
          | none => props
        let req1 :=
          match refDef.required with
          | some rs => req ++ rs
          | none => req
        match refDef.allOf with
        | some nested =>
          if _h : fuel = 0 then
            collectFromPartsLoop defs fuel rest props1 req1
          else
            let nestedResult := collectFromPartsLoop defs (fuel - 1) nested [] []
            collectFromPartsLoop defs fuel rest (objMerge props1 nestedResult.1)
              (req1 ++ nestedResult.2)
        | none => collectFromPartsLoop defs fuel rest props1 req1
      | none => collectFromPartsLoop defs fuel rest props req
    | none =>
      match part.properties with
      | some ps =>
        let req1 :=
          match part.required with
          | some rs => req ++ rs
          | none => req
        collectFromPartsLoop defs fuel rest (objMerge props ps) req1
      | none => collectFromPartsLoop defs fuel rest props req
termination_by fuel parts _ _ => (fuel, parts)

/-- `collectFromParts(parts)`: collect properties and required fields from a
list of schema parts, starting from empty accumulators. -/
def collectFromParts (defs : List (String × Defn)) (fuel : Nat) (parts : List Defn) :
    (List (String × Defn)) × List String :=
  collectFromPartsLoop defs fuel parts [] []

/-- The union branch of `generatePropsFromType` (lines 379–405): collect every
member's properties, merge them all, and keep a property required only if it
is required in ALL union members. -/
def unionMerge (defs : List (String × Defn)) (fuel : Nat) (unionMembers : List Defn) :
    (List (String × Defn)) × List String :=
  let memberProps := unionMembers.map (fun m => collectFromParts defs fuel [m])
  let allProperties := memberProps.foldl (fun acc mp => objMerge acc mp.1) []
  let allPropNames := allProperties.map (fun kv => kv.1)
  let allRequired :=
    allPropNames.filter (fun p => memberProps.all (fun mp => mp.2.contains p))
  (allProperties, allRequired)

/-- The front half of `generatePropsFromType`'s `try` block (lines 312–409):
resolve the main definition, follow its `$ref` chain, and compute the
source's `allProperties`/`allRequired` locals according to the
intersection/union/plain shape of the type. `none` when the definitions
table has no entry for the props type (the source then warns and returns
an empty props map). -/
def collectedPropsAndRequired (config : ComponentConfig) (schema : TsjSchema) :
    Option ((List (String × Defn)) × List String) :=
  let propsType := getPropsType config
  let defs := schema.definitions
  match objGet defs propsType with
  | none => none
  | some mainDef0 =>
    let fuel := defs.length + 1
    let mainDef := followRefChain defs fuel mainDef0
    some (match mainDef.allOf with
      | some parts => collectFromParts defs fuel parts
      | none =>
        match mainDef.anyOf with
        | some unionMembers => unionMerge defs fuel unionMembers
        | none =>
          match mainDef.oneOf with
          | some unionMembers => unionMerge defs fuel unionMembers
          | none =>
            match mainDef.properties with
            | some ps => (ps, mainDef.required.getD [])
            | none => ([], []))

/-- The final loop of `generatePropsFromType` (lines 411–428): convert every
non-skipped collected property. -/
def buildPropsMap (config : ComponentConfig) (skipProp : String → Bool)
    (defs : List (String × Defn))
    (allProperties : List (String × Defn)) (allRequired : List String) :
    List (String × PropSchema) :=
  allProperties.foldl
    (fun props kv =>
      if skipProp kv.1 then props
      else
        objSet props kv.1
          (convertToPropSchema kv.1 kv.2 (allRequired.contains kv.1)
            (some config.variants) (some config.defaults) (some defs)))
    []

/-- The body of `generatePropsFromType`'s `try` block after the schema has
been produced (lines 309–428). `skipProp` stands for
`(propName) => shouldSkipProp(propName, CLI_FLAGS)`; the `props-filter`
module is not among the provided sources, so the predicate is a parameter
(per the spec it suppresses internal React props and inherited DOM props). -/
def generatePropsFromTypeCore (config : ComponentConfig) (skipProp : String → Bool)
    (schema : TsjSchema) : List (String × PropSchema) :=
  match collectedPropsAndRequired config schema with
  | none => []
  | some collected =>
    buildPropsMap config skipProp schema.definitions collected.1 collected.2

/-- The per-variant fallback `PropSchema` built by the loop of
`generatePropsFromVariantsOnly` (lines 450–466): an enum of the option keys,
the default when the defaults map has a truthy (nonempty) entry, and the
option descriptions when any option defines one. -/
def fallbackVariantProp (config : ComponentConfig) (propName : String)
    (variantDef : VariantTable) : PropSchema :=
  { type := "enum"
    values := some (variantDef.map (fun kv => kv.1))
    default :=
      match objGet config.defaults propName with
      | some d => if d ≠ "" then some d else none
      | none => none
    descriptions :=
      if (variantDescriptions variantDef).length > 0 then
        some (variantDescriptions variantDef)
      else none }

/-- `generatePropsFromVariantsOnly(config)` (lines 444–476): fallback schema
synthesis from the declared variant tables, plus the universal `className`
and `children` props. The `default` spread uses JS truthiness
(`config.defaults[propName] && \x7b...\x7d`), so an empty-string default is
dropped. -/
def generatePropsFromVariantsOnly (config : ComponentConfig) :
    List (String × PropSchema) :=
  let props := config.variants.foldl
    (fun props pv => objSet props pv.1 (fallbackVariantProp config pv.1 pv.2)) []
  let props := objSet props "className"
    { type := "string", description := some "Additional CSS classes" }
  objSet props "children"
    { type := "ReactNode", description := some "Child elements" }

/-- `generatePropsFromType(config)` (lines 292–437): the `try`/`catch`. The
`ts-json-schema-generator` invocation is external I/O, so its outcome is the
`tsjResult` argument: an exception (`Except.error`) makes the function return
the variants-only fallback instead of propagating. -/
def generatePropsFromType (config : ComponentConfig) (skipProp : String → Bool)
    (tsjResult : Except String TsjSchema) : List (String × PropSchema) :=
  match tsjResult with
  | .ok schema => generatePropsFromTypeCore config skipProp schema
  | .error _ => generatePropsFromVariantsOnly config

/-- Modelled from the spec: opaque styling-metadata payload. The
`COMPONENT_STYLING_METADATA` table lives in `metadata.ts`, which is not among
the provided source files; only presence/absence of an entry matters to the
generator's control flow. -/
abbrev StylingMetadata := List (String × String)

/-- One member of a compound export (`SubComponentSchema` of `types.ts`,
reconstructed from its construction at lines 613–621). -/
structure SubComponentSchema where
  name : String
  description : Option String := none
  props : List (String × PropSchema)
  isPassThrough : Option Bool := none
  baseComponent : Option String := none
  usageExamples : Option (List String) := none
  renderElement : Option String := none
deriving DecidableEq, Repr

/-- The unit persisted in the registry (`ComponentSchema` of `types.ts`,
reconstructed from its construction at lines 635–647). -/
structure ComponentSchema where
  name : String
  type : String
  description : String
  importPath : String
  category : String
  props : List (String × PropSchema)
  examples : List String
  colors : List String
  baseStyles : Option (List String) := none
  subComponents : Option (List (String × SubComponentSchema)) := none
  styling : Option StylingMetadata := none
deriving DecidableEq, Repr

/-- A per-component persisted cache record (`CacheEntry`, reconstructed from
its construction at lines 526–533). -/
structure CacheEntry where
  componentName : String
  sourceHash : String
  storyHash : String
  cacheVersion : String
  generatedAt : Nat
  metadata : ComponentSchema
deriving DecidableEq, Repr

/-- The persisted cache file: a full snapshot keyed by component name. -/
structure CacheFile where
  version : String
  entries : List (String × CacheEntry)
deriving DecidableEq, Repr

/-- Modelled from the spec: `isValid` of the cache module (`cache.ts` is not
among the provided source files). Spec §4.4: true iff
`entry.cacheVersion == currentVersion` AND `entry.sourceHash == sourceHash`
AND `entry.storyHash == storyHash`. -/
def isValid (entry : CacheEntry) (sourceHash storyHash currentVersion : String) : Bool :=
  entry.cacheVersion == currentVersion
    && entry.sourceHash == sourceHash
    && entry.storyHash == storyHash

/-- Modelled from the spec: `getCachedComponent` of the missing cache module.
Reuse the stored metadata only when an entry exists and is valid; the
`--no-cache` flag bypasses lookups entirely (spec §4.4 force mode). The
tool's `CACHE_VERSION` constant is the `currentVersion` argument here. -/
def getCachedComponent (name sourceHash storyHash : String) (cache : CacheFile)
    (currentVersion : String) (flags : CLIFlags) : Option ComponentSchema :=
  if flags.noCache then
    none
  else
    match objGet cache.entries name with
    | some entry =>
      if isValid entry sourceHash storyHash currentVersion then
        some entry.metadata
      else
        none
    | none => none

/-- `ProcessComponentResult`: the value resolved by `processComponent`
(reconstructed from its construction at lines 520–534 and 649–656). -/
structure RegResult where
  name : String
  category : String
  schema : ComponentSchema
  colors : List String
  cached : Bool
  cacheEntry : CacheEntry
deriving DecidableEq, Repr

/-- `const BATCH_SIZE = 8` (line 669). -/
def BATCH_SIZE : Nat := 8

/-- `processComponentsInParallel` (lines 663–683). The loop takes
`configs.slice(i, i + BATCH_SIZE)` for `i = 0, 8, ...`; `Promise.all`
resolves to the batch's results in input order, and batches are awaited
sequentially, so the collected list is the concatenation of the per-batch
result lists. `process` stands for the per-unit `processComponent` call with
the shared `variantConstants`/`storyExamples`/`cache` captured. -/
def processComponentsInParallel (process : ComponentConfig → RegResult) :
    List ComponentConfig → List RegResult
  | [] => []
  | c :: rest =>
    ((c :: rest).take BATCH_SIZE).map process
      ++ processComponentsInParallel process ((c :: rest).drop BATCH_SIZE)
termination_by configs => configs.length
decreasing_by simp [BATCH_SIZE]; omega

/-- The batch decomposition performed by the loop of
`processComponentsInParallel`: the successive slices
`configs.slice(i, i + BATCH_SIZE)`. -/
def registryBatches : List ComponentConfig → List (List ComponentConfig)
  | [] => []
  | c :: rest =>
    (c :: rest).take BATCH_SIZE :: registryBatches ((c :: rest).drop BATCH_SIZE)
termination_by configs => configs.length
decreasing_by simp [BATCH_SIZE]; omega

/-- A block's registry entry: `\x7b...result.schema, type: "block", files,
dependencies\x7d` (lines 780–785). -/
structure BlockSchema where
  base : ComponentSchema
  files : List String
  dependencies : List String
deriving DecidableEq, Repr

/-- `byType`: `\x7bcomponent: [], block: []\x7d` (line 750). -/
structure ByType where
  component : List String
  block : List String
deriving DecidableEq, Repr

/-- The registry's `search` object (lines 836–840). -/
structure SearchIndex where
  byCategory : List (String × List String)
  byName : List String
  byType : ByType
deriving DecidableEq, Repr

/-- The root registry object (lines 832–841). -/
structure Registry where
  version : String
  components : List (String × ComponentSchema)
  blocks : List (String × BlockSchema)
  search : SearchIndex
deriving DecidableEq, Repr

/-- `GenerateRegistryResult`: registry plus the semantic-color map; the new
cache snapshot's entries are carried too (its `saveCache` write is I/O). -/
structure GenerateRegistryResult where
  registry : Registry
  componentColors : List (String × List String)
  newCacheEntries : List (String × CacheEntry)
deriving DecidableEq, Repr

/-- `if (!byCategory[cat]) byCategory[cat] = []; byCategory[cat].push(name)`
(lines 762–765 and 789–792). -/
def pushCategory (m : List (String × List String)) (cat name : String) :
    List (String × List String) :=
  match objGet m cat with
  | some names => objSet m cat (names ++ [name])
  | none => objSet m cat [name]

/-- Accumulator of the two result loops of `generateRegistry`. -/
structure AssemblyState where
  components : List (String × ComponentSchema)
  blocks : List (String × BlockSchema)
  byCategory : List (String × List String)
  byTypeComponent : List String
  byTypeBlock : List String
  componentColors : List (String × List String)
  cacheEntries : List (String × CacheEntry)
deriving Repr

/-- The synthetic `InputArea` registry entry (lines 804–815). -/
def inputAreaSyntheticSchema (sm : StylingMetadata) : ComponentSchema :=
  { name := "InputArea"
    type := "component"
    description := "Multi-line textarea input with Input variants and InputArea-specific dimensions"
    importPath := "@cloudflare/kumo (synthetic - uses Input component)"
    category := "Input"
    props := []
    styling := some sm
    examples := []
    colors := [] }

/-- The body of the `for (const result of componentResults)` loop
(lines 757–769). -/
def componentLoopStep (acc : AssemblyState) (r : RegResult) : AssemblyState :=
  { acc with
      components := objSet acc.components r.name r.schema
      componentColors := objSet acc.componentColors r.name r.colors
      byTypeComponent := acc.byTypeComponent ++ [r.name]
      byCategory := pushCategory acc.byCategory r.category r.name
      cacheEntries := objSet acc.cacheEntries r.name r.cacheEntry }

/-- The body of the `for (const result of blockResults)` loop
(lines 772–796). -/
def blockLoopStep (blockFiles blockDependencies : String → List String)
    (acc : AssemblyState) (r : RegResult) : AssemblyState :=
  { acc with
      blocks := objSet acc.blocks r.name
        { base := { r.schema with type := "block" }
          files := blockFiles r.name
          dependencies := blockDependencies r.name }
      componentColors := objSet acc.componentColors r.name r.colors
      byTypeBlock := acc.byTypeBlock ++ [r.name]
      byCategory := pushCategory acc.byCategory r.category r.name
      cacheEntries := objSet acc.cacheEntries r.name r.cacheEntry }

/-- The pure tail of `generateRegistry` (lines 742–843), applied to the two
parallel-phase result lists. `blockFiles`/`blockDependencies` stand for the
filesystem scans `getBlockFiles`/`extractBlockDependencies` (from the missing
`utils.ts` module), keyed here by block name; `inputAreaStyling` is
`COMPONENT_STYLING_METADATA.InputArea`. -/
def generateRegistryCore (componentResults blockResults : List RegResult)
    (blockFiles blockDependencies : String → List String)
    (inputAreaStyling : Option StylingMetadata) : GenerateRegistryResult :=
  let allResults :=
    (componentResults ++ blockResults).mergeSort
      (fun a b => decide (a.name ≤ b.name))
  let s1 := componentResults.foldl componentLoopStep
    { components := [], blocks := [], byCategory := [], byTypeComponent := []
      byTypeBlock := [], componentColors := [], cacheEntries := [] }
  let s2 := blockResults.foldl (blockLoopStep blockFiles blockDependencies) s1
  let s3 :=
    match inputAreaStyling with
    | some sm =>
      { s2 with
          components := objSet s2.components "InputArea" (inputAreaSyntheticSchema sm)
          byCategory :=
            match objGet s2.byCategory "Input" with
            | some _ => s2.byCategory
            | none => objSet s2.byCategory "Input" [] }
    | none => s2
  { registry :=
      { version := "1.0.0"
        components := s3.components
        blocks := s3.blocks
        search :=
          { byCategory := s3.byCategory
            byName := allResults.map (fun r => r.name)
            byType := { component := s3.byTypeComponent, block := s3.byTypeBlock } } }
    componentColors := s3.componentColors
    newCacheEntries := s3.cacheEntries }

/-- Outcome of a styles-build step: the script either continues or reaches
`process.exit(code)`; `logs` is what the step printed. -/
inductive StylesStepOutcome where
  | continued (logs : List String)
  | exited (code : Nat) (logs : List String)
deriving DecidableEq, Repr

/-- The standalone-CSS compilation step of the styles build script (the
`try`/`catch` around the Tailwind CLI `execSync` invocation): the subprocess
result is external and passed as `tailwindResult`; on failure the script
prints the underlying error and calls `process.exit(1)`. -/
def compileStandaloneCss (tailwindResult : Except String Unit) : StylesStepOutcome :=
  match tailwindResult with
  | .ok _ => .continued ["✓ Compiled kumo-standalone.css"]
  | .error e => .exited 1 ["❌ Failed to compile standalone CSS: " ++ e]

/-! ## Association-list lemmas -/

theorem objGet_objSet_self (l : List (String × α)) (k : String) (v : α) :
    objGet (objSet l k v) k = some v := by
  induction l with
  | nil => simp [objGet, objSet]
  | cons kv rest ih => by_cases h : kv.1 = k <;> simp [objGet, objSet, h, ih]

theorem objGet_objSet_ne (l : List (String × α)) (k k' : String) (v : α)
    (h : k' ≠ k) : objGet (objSet l k v) k' = objGet l k' := by
  induction l with
  | nil => simp [objGet, objSet, Ne.symm h]
  | cons kv rest ih =>
    by_cases hk : kv.1 = k
    · have hkv : ¬ kv.1 = k' := by rw [hk]; exact Ne.symm h
      simp [objGet, objSet, hk, Ne.symm h, hkv]
    · simp [objGet, objSet, hk, ih]

theorem isSome_objGet_objSet (l : List (String × α)) (k k' : String) (v : α) :
    (objGet (objSet l k v) k').isSome ↔ (objGet l k').isSome ∨ k' = k := by
  by_cases h : k' = k
  · subst h; simp [objGet_objSet_self]
  · simp [objGet_objSet_ne l k k' v h, h]

theorem isSome_objGet_iff_mem (l : List (String × α)) (k : String) :
    (objGet l k).isSome ↔ k ∈ l.map Prod.fst := by
  induction l with
  | nil => simp [objGet]
  | cons kv rest ih =>
    by_cases h : kv.1 = k
    · simp [objGet, h]
    · simp [objGet, h, Ne.symm h, ih]

theorem isSome_objGet_objMerge (a b : List (String × α)) (k : String) :
    (objGet (objMerge a b) k).isSome ↔
      (objGet a k).isSome ∨ (objGet b k).isSome := by
  induction b generalizing a with
  | nil => simp [objMerge, objGet]
  | cons kv rest ih =>
    show (objGet (objMerge (objSet a kv.1 kv.2) rest) k).isSome ↔ _
    rw [ih, isSome_objGet_objSet]
    by_cases h : kv.1 = k
    · simp [objGet, h]
    · simp [objGet, h, Ne.symm h, or_assoc]

/-! ## Stage lemmas for `convertToPropSchema` -/

theorem applyRequiredFlag_descriptions (r : Bool) (p : PropSchema) :
    (applyRequiredFlag r p).descriptions = p.descriptions := by
  unfold applyRequiredFlag
  split <;> rfl

theorem applyRequiredFlag_classes (r : Bool) (p : PropSchema) :
    (applyRequiredFlag r p).classes = p.classes := by
  unfold applyRequiredFlag
  split <;> rfl

theorem applyRequiredFlag_stateClasses (r : Bool) (p : PropSchema) :
    (applyRequiredFlag r p).stateClasses = p.stateClasses := by
  unfold applyRequiredFlag
  split <;> rfl

theorem applyDescription_required (d : Defn) (p : PropSchema) :
    (applyDescription d p).required = p.required := by
  unfold applyDescription
  split
  · split <;> rfl
  · rfl

theorem applyDescription_optional (d : Defn) (p : PropSchema) :
    (applyDescription d p).optional = p.optional := by
  unfold applyDescription
  split
  · split <;> rfl
  · rfl

theorem applyDescription_descriptions (d : Defn) (p : PropSchema) :
    (applyDescription d p).descriptions = p.descriptions := by
  unfold applyDescription
  split
  · split <;> rfl
  · rfl

theorem applyDescription_classes (d : Defn) (p : PropSchema) :
    (applyDescription d p).classes = p.classes := by
  unfold applyDescription
  split
  · split <;> rfl
  · rfl

theorem applyDescription_stateClasses (d : Defn) (p : PropSchema) :
    (applyDescription d p).stateClasses = p.stateClasses := by
  unfold applyDescription
  split
  · split <;> rfl
  · rfl

theorem applyEnum_required (d rd : Defn) (p : PropSchema) :
    (applyEnum d rd p).required = p.required := by
  unfold applyEnum
  split
  · rfl
  · split <;> rfl

theorem applyEnum_optional (d rd : Defn) (p : PropSchema) :
    (applyEnum d rd p).optional = p.optional := by
  unfold applyEnum
  split
  · rfl
  · split <;> rfl

theorem applyEnum_descriptions (d rd : Defn) (p : PropSchema) :
    (applyEnum d rd p).descriptions = p.descriptions := by
  unfold applyEnum
  split
  · rfl
  · split <;> rfl

theorem applyEnum_classes (d rd : Defn) (p : PropSchema) :
    (applyEnum d rd p).classes = p.classes := by
  unfold applyEnum
  split
  · rfl
  · split <;> rfl

theorem applyEnum_stateClasses (d rd : Defn) (p : PropSchema) :
    (applyEnum d rd p).stateClasses = p.stateClasses := by
  unfold applyEnum
  split
  · rfl
  · split <;> rfl

theorem applyVariantEnrichment_required (n : String)
    (vs : Option (List (String × VariantTable))) (p : PropSchema) :
    (applyVariantEnrichment n vs p).required = p.required := by
  unfold applyVariantEnrichment
  split <;> rfl

theorem applyVariantEnrichment_optional (n : String)
    (vs : Option (List (String × VariantTable))) (p : PropSchema) :
    (applyVariantEnrichment n vs p).optional = p.optional := by
  unfold applyVariantEnrichment
  split <;> rfl

theorem applyVariantEnrichment_of_mem (n : String) (vs : List (String × VariantTable))
    (vd : VariantTable) (p : PropSchema) (hv : objGet vs n = some vd) :
    applyVariantEnrichment n (some vs) p =
      { p with
          type := "enum"
          values := some (vd.map (fun kv => kv.1))
          descriptions :=
            if (variantDescriptions vd).length > 0 then
              some (variantDescriptions vd)
            else p.descriptions
          classes :=
            if (variantClasses vd).length > 0 then
              some (variantClasses vd)
            else p.classes
          stateClasses :=
            if (variantStateClasses vd).length > 0 then
              some (variantStateClasses vd)
            else p.stateClasses } := by
  unfold applyVariantEnrichment
  simp [hv]

theorem applyDefault_required (n : String) (df : Option (List (String × String)))
    (p : PropSchema) : (applyDefault n df p).required = p.required := by
  unfold applyDefault
  split <;> rfl

theorem applyDefault_optional (n : String) (df : Option (List (String × String)))
    (p : PropSchema) : (applyDefault n df p).optional = p.optional := by
  unfold applyDefault
  split <;> rfl

theorem applyDefault_type (n : String) (df : Option (List (String × String)))
    (p : PropSchema) : (applyDefault n df p).type = p.type := by
  unfold applyDefault
  split <;> rfl

theorem applyDefault_values (n : String) (df : Option (List (String × String)))
    (p : PropSchema) : (applyDefault n df p).values = p.values := by
  unfold applyDefault
  split <;> rfl

theorem applyDefault_descriptions (n : String) (df : Option (List (String × String)))
    (p : PropSchema) : (applyDefault n df p).descriptions = p.descriptions := by
  unfold applyDefault
  split <;> rfl

theorem applyDefault_classes (n : String) (df : Option (List (String × String)))
    (p : PropSchema) : (applyDefault n df p).classes = p.classes := by
  unfold applyDefault
  split <;> rfl

theorem applyDefault_stateClasses (n : String) (df : Option (List (String × String)))
    (p : PropSchema) : (applyDefault n df p).stateClasses = p.stateClasses := by
  unfold applyDefault
  split <;> rfl

theorem applyDefault_of_mem (n : String) (ds : List (String × String)) (dv : String)
    (p : PropSchema) (hd : objGet ds n = some dv) :
    applyDefault n (some ds) p = { p with default := some dv } := by
  unfold applyDefault
  simp [hd]

/-! ## `convertToPropSchema` characterization -/

theorem convertToPropSchema_required (n : String) (d : Defn) (r : Bool)
    (v : Option (List (String × VariantTable))) (df : Option (List (String × String)))
    (ad : Option (List (String × Defn))) :
    (convertToPropSchema n d r v df ad).required = if r then some true else none := by
  unfold convertToPropSchema
  rw [applyDefault_required, applyVariantEnrichment_required, applyEnum_required,
    applyDescription_required]
  unfold applyRequiredFlag
  by_cases hr : r <;> simp [hr]

theorem convertToPropSchema_optional (n : String) (d : Defn) (r : Bool)
    (v : Option (List (String × VariantTable))) (df : Option (List (String × String)))
    (ad : Option (List (String × Defn))) :
    (convertToPropSchema n d r v df ad).optional = if r then none else some true := by
  unfold convertToPropSchema
  rw [applyDefault_optional, applyVariantEnrichment_optional, applyEnum_optional,
    applyDescription_optional]
  unfold applyRequiredFlag
  by_cases hr : r <;> simp [hr]

theorem convertToPropSchema_variant_type (n : String) (d : Defn) (r : Bool)
    (vs : List (String × VariantTable)) (vd : VariantTable)
    (df : Option (List (String × String))) (ad : Option (List (String × Defn)))
    (hv : objGet vs n = some vd) :
    (convertToPropSchema n d r (some vs) df ad).type = "enum" := by
  unfold convertToPropSchema
  rw [applyDefault_type, applyVariantEnrichment_of_mem n vs vd _ hv]

theorem convertToPropSchema_variant_values (n : String) (d : Defn) (r : Bool)
    (vs : List (String × VariantTable)) (vd : VariantTable)
    (df : Option (List (String × String))) (ad : Option (List (String × Defn)))
    (hv : objGet vs n = some vd) :
    (convertToPropSchema n d r (some vs) df ad).values
      = some (vd.map (fun kv => kv.1)) := by
  unfold convertToPropSchema
  rw [applyDefault_values, applyVariantEnrichment_of_mem n vs vd _ hv]

theorem convertToPropSchema_default (n : String) (d : Defn) (r : Bool)
    (v : Option (List (String × VariantTable))) (ds : List (String × String))
    (dv : String) (ad : Option (List (String × Defn)))
    (hd : objGet ds n = some dv) :
    (convertToPropSchema n d r v (some ds) ad).default = some dv := by
  unfold convertToPropSchema
  rw [applyDefault_of_mem n ds dv _ hd]

theorem convertToPropSchema_variant_descriptions (n : String) (d : Defn) (r : Bool)
    (vs : List (String × VariantTable)) (vd : VariantTable)
    (df : Option (List (String × String))) (ad : Option (List (String × Defn)))
    (hv : objGet vs n = some vd) :
    (convertToPropSchema n d r (some vs) df ad).descriptions
      = if (variantDescriptions vd).length > 0 then some (variantDescriptions vd)
        else none := by
  unfold convertToPropSchema
  rw [applyDefault_descriptions, applyVariantEnrichment_of_mem n vs vd _ hv]
  show (if _ then _ else (applyEnum _ _ _).descriptions) = _
  rw [applyEnum_descriptions, applyDescription_descriptions,
    applyRequiredFlag_descriptions]

theorem convertToPropSchema_variant_classes (n : String) (d : Defn) (r : Bool)
    (vs : List (String × VariantTable)) (vd : VariantTable)
    (df : Option (List (String × String))) (ad : Option (List (String × Defn)))
    (hv : objGet vs n = some vd) :
    (convertToPropSchema n d r (some vs) df ad).classes
      = if (variantClasses vd).length > 0 then some (variantClasses vd)
        else none := by
  unfold convertToPropSchema
  rw [applyDefault_classes, applyVariantEnrichment_of_mem n vs vd _ hv]
  show (if _ then _ else (applyEnum _ _ _).classes) = _
  rw [applyEnum_classes, applyDescription_classes, applyRequiredFlag_classes]

theorem convertToPropSchema_variant_stateClasses (n : String) (d : Defn) (r : Bool)
    (vs : List (String × VariantTable)) (vd : VariantTable)
    (df : Option (List (String × String))) (ad : Option (List (String × Defn)))
    (hv : objGet vs n = some vd) :
    (convertToPropSchema n d r (some vs) df ad).stateClasses
      = if (variantStateClasses vd).length > 0 then some (variantStateClasses vd)
        else none := by
  unfold convertToPropSchema
  rw [applyDefault_stateClasses, applyVariantEnrichment_of_mem n vs vd _ hv]
  show (if _ then _ else (applyEnum _ _ _).stateClasses) = _
  rw [applyEnum_stateClasses, applyDescription_stateClasses,
    applyRequiredFlag_stateClasses]

/-! ## `buildPropsMap` lemmas -/

theorem isSome_objGet_skipFold (skip : String → Bool) (g : String → Defn → PropSchema)
    (aps : List (String × Defn)) (acc : List (String × PropSchema)) (k : String) :
    (objGet (aps.foldl (fun props kv =>
        if skip kv.1 then props else objSet props kv.1 (g kv.1 kv.2)) acc) k).isSome
      ↔ (objGet acc k).isSome ∨ (skip k = false ∧ k ∈ aps.map Prod.fst) := by
  induction aps generalizing acc with
  | nil => simp
  | cons kv rest ih =>
    rw [List.foldl_cons, ih]
    by_cases hs : skip kv.1
    · by_cases hk : kv.1 = k
      · subst hk
        simp [hs]
      · simp [hs, Ne.symm hk]
    · have hs' : skip kv.1 = false := by revert hs; cases skip kv.1 <;> simp
      by_cases hk : kv.1 = k
      · subst hk
        simp [hs', isSome_objGet_objSet]
      · rw [if_neg hs, isSome_objGet_objSet]
        simp [Ne.symm hk, or_assoc]

theorem objGet_skipFold_eq_some (skip : String → Bool) (g : String → Defn → PropSchema)
    (aps : List (String × Defn)) (acc : List (String × PropSchema)) (k : String)
    (ps : PropSchema)
    (h : objGet (aps.foldl (fun props kv =>
        if skip kv.1 then props else objSet props kv.1 (g kv.1 kv.2)) acc) k = some ps) :
    objGet acc k = some ps ∨ (skip k = false ∧ ∃ dd, (k, dd) ∈ aps ∧ ps = g k dd) := by
  induction aps generalizing acc with
  | nil => exact Or.inl h
  | cons kv rest ih =>
    rw [List.foldl_cons] at h
    rcases ih _ h with h' | ⟨hsk, dd, hdd, hps⟩
    · by_cases hs : skip kv.1
      · rw [if_pos hs] at h'
        exact Or.inl h'
      · rw [if_neg hs] at h'
        by_cases hk : kv.1 = k
        · subst hk
          rw [objGet_objSet_self] at h'
          refine Or.inr ⟨by simpa using hs, kv.2, by simp, ?_⟩
          exact (Option.some.injEq _ _ ▸ h').symm
        · rw [objGet_objSet_ne _ _ _ _ (Ne.symm hk)] at h'
          exact Or.inl h'
    · exact Or.inr ⟨hsk, dd, List.mem_cons_of_mem _ hdd, hps⟩

theorem isSome_objGet_buildPropsMap (config : ComponentConfig) (skipProp : String → Bool)
    (defs aps : List (String × Defn)) (areq : List String) (k : String) :
    (objGet (buildPropsMap config skipProp defs aps areq) k).isSome
      ↔ skipProp k = false ∧ k ∈ aps.map Prod.fst := by
  have h := isSome_objGet_skipFold skipProp
    (fun n dd => convertToPropSchema n dd (areq.contains n)
      (some config.variants) (some config.defaults) (some defs)) aps [] k
  unfold buildPropsMap
  simpa [objGet] using h

theorem objGet_buildPropsMap_eq_some (config : ComponentConfig) (skipProp : String → Bool)
    (defs aps : List (String × Defn)) (areq : List String) (k : String) (ps : PropSchema)
    (h : objGet (buildPropsMap config skipProp defs aps areq) k = some ps) :
    skipProp k = false ∧ ∃ dd, (k, dd) ∈ aps ∧
      ps = convertToPropSchema k dd (areq.contains k)
        (some config.variants) (some config.defaults) (some defs) := by
  unfold buildPropsMap at h
  have h2 := objGet_skipFold_eq_some skipProp
    (fun n dd => convertToPropSchema n dd (areq.contains n)
      (some config.variants) (some config.defaults) (some defs)) aps [] k ps (by exact h)
  rcases h2 with h' | ⟨hsk, dd, hdd, hps⟩
  · simp [objGet] at h'
  · exact ⟨hsk, dd, hdd, hps⟩

/-! ## `unionMerge` lemmas -/

theorem isSome_objGet_foldl_objMerge {β : Type} (ls : List ((List (String × α)) × β))
    (acc : List (String × α)) (k : String) :
    (objGet (ls.foldl (fun a mp => objMerge a mp.1) acc) k).isSome
      ↔ (objGet acc k).isSome ∨ ∃ mp ∈ ls, (objGet mp.1 k).isSome := by
  induction ls generalizing acc with
  | nil => simp
  | cons mp rest ih =>
    rw [List.foldl_cons, ih, isSome_objGet_objMerge]
    simp [or_assoc]

theorem isSome_objGet_unionMerge_fst (defs : List (String × Defn)) (fuel : Nat)
    (members : List Defn) (k : String) :
    (objGet (unionMerge defs fuel members).1 k).isSome
      ↔ ∃ m ∈ members, (objGet (collectFromParts defs fuel [m]).1 k).isSome := by
  unfold unionMerge
  rw [isSome_objGet_foldl_objMerge]
  simp [objGet]

theorem unionMerge_required_contains (defs : List (String × Defn)) (fuel : Nat)
    (members : List Defn) (k : String) :
    ((unionMerge defs fuel members).2.contains k = true)
      ↔ ((objGet (unionMerge defs fuel members).1 k).isSome
          ∧ ∀ m ∈ members, (collectFromParts defs fuel [m]).2.contains k = true) := by
  rw [isSome_objGet_unionMerge_fst]
  unfold unionMerge
  rw [List.elem_iff, List.mem_filter]
  rw [← isSome_objGet_iff_mem, isSome_objGet_foldl_objMerge]
  simp [objGet, List.all_eq_true]

/-! ## Shape lemmas for `collectedPropsAndRequired` -/

theorem followRefChain_of_union (defs : List (String × Defn)) (fuel : Nat) (d : Defn)
    (h : d.anyOf.isSome ∨ d.oneOf.isSome) : followRefChain defs fuel d = d := by
  cases fuel with
  | zero => rfl
  | succ n =>
    cases hr : d.ref with
    | none => simp [followRefChain, hr]
    | some r => rcases h with h | h <;> simp [followRefChain, hr, h]

/-- A union-shaped main definition — `mainDef.anyOf || mainDef.oneOf` in the
source, so `anyOf` wins when present and `oneOf` is used otherwise — makes
`collectedPropsAndRequired` take the `unionMerge` path. -/
theorem collectedPropsAndRequired_union (config : ComponentConfig) (schema : TsjSchema)
    (mainDef : Defn) (members : List Defn)
    (hmain : objGet schema.definitions (getPropsType config) = some mainDef)
    (hunion : mainDef.anyOf = some members
      ∨ (mainDef.anyOf = none ∧ mainDef.oneOf = some members))
    (hallOf : mainDef.allOf = none) :
    collectedPropsAndRequired config schema
      = some (unionMerge schema.definitions (schema.definitions.length + 1) members) := by
  unfold collectedPropsAndRequired
  simp only [hmain]
  rcases hunion with hany | ⟨hany, hone⟩
  · rw [followRefChain_of_union _ _ _ (Or.inl (by simp [hany]))]
    simp [hallOf, hany]
  · rw [followRefChain_of_union _ _ _ (Or.inr (by simp [hone]))]
    simp [hallOf, hany, hone]

theorem generatePropsFromTypeCore_eq_buildPropsMap (config : ComponentConfig)
    (skipProp : String → Bool) (schema : TsjSchema)
    (collected : (List (String × Defn)) × List String)
    (h : collectedPropsAndRequired config schema = some collected) :
    generatePropsFromTypeCore config skipProp schema
      = buildPropsMap config skipProp schema.definitions collected.1 collected.2 := by
  unfold generatePropsFromTypeCore
  rw [h]

/-! ## Registry-assembly lemmas -/

theorem foldl_componentLoopStep_byTypeComponent (rs : List RegResult) (s : AssemblyState) :
    (rs.foldl componentLoopStep s).byTypeComponent
      = s.byTypeComponent ++ rs.map RegResult.name := by
  induction rs generalizing s with
  | nil => simp
  | cons r rest ih => simp [componentLoopStep, ih]

theorem foldl_componentLoopStep_components_isSome (rs : List RegResult)
    (s : AssemblyState) (k : String) :
    (objGet (rs.foldl componentLoopStep s).components k).isSome
      ↔ (objGet s.components k).isSome ∨ k ∈ rs.map RegResult.name := by
  induction rs generalizing s with
  | nil => simp
  | cons r rest ih =>
    rw [List.foldl_cons, ih]
    show ((objGet (objSet s.components r.name r.schema) k).isSome ∨ _) ↔ _
    rw [isSome_objGet_objSet]
    simp [or_assoc]

theorem foldl_blockLoopStep_components (rs : List RegResult)
    (bf bd : String → List String) (s : AssemblyState) :
    (rs.foldl (blockLoopStep bf bd) s).components = s.components := by
  induction rs generalizing s with
  | nil => rfl
  | cons r rest ih => simp [blockLoopStep, ih]

theorem foldl_blockLoopStep_byTypeComponent (rs : List RegResult)
    (bf bd : String → List String) (s : AssemblyState) :
    (rs.foldl (blockLoopStep bf bd) s).byTypeComponent = s.byTypeComponent := by
  induction rs generalizing s with
  | nil => rfl
  | cons r rest ih => simp [blockLoopStep, ih]

/-! ## Batch lemmas -/

theorem processComponentsInParallel_eq_map_bounded
    (process : ComponentConfig → RegResult) :
    ∀ (n : Nat) (configs : List ComponentConfig), configs.length ≤ n →
      processComponentsInParallel process configs = configs.map process := by
  intro n
  induction n with
  | zero =>
    intro configs h
    cases configs with
    | nil => simp [processComponentsInParallel]
    | cons c rest => simp at h
  | succ n ih =>
    intro configs h
    cases configs with
    | nil => simp [processComponentsInParallel]
    | cons c rest =>
      rw [processComponentsInParallel]
      rw [ih ((c :: rest).drop BATCH_SIZE)
        (by simp [BATCH_SIZE] at h ⊢; omega)]
      rw [← List.map_append, List.take_append_drop]

theorem registryBatches_join :
    ∀ (n : Nat) (configs : List ComponentConfig), configs.length ≤ n →
      (registryBatches configs).flatten = configs := by
  intro n
  induction n with
  | zero =>
    intro configs h
    cases configs with
    | nil => simp [registryBatches]
    | cons c rest => simp at h
  | succ n ih =>
    intro configs h
    cases configs with
    | nil => simp [registryBatches]
    | cons c rest =>
      rw [registryBatches]
      rw [List.flatten_cons]
      rw [ih ((c :: rest).drop BATCH_SIZE)
        (by simp [BATCH_SIZE] at h ⊢; omega)]
      exact List.take_append_drop _ _

theorem registryBatches_mem_bound :
    ∀ (n : Nat) (configs : List ComponentConfig), configs.length ≤ n →
      ∀ b ∈ registryBatches configs, b.length ≤ BATCH_SIZE ∧ b ≠ [] := by
  intro n
  induction n with
  | zero =>
    intro configs h b hb
    cases configs with
    | nil => simp [registryBatches] at hb
    | cons c rest => simp at h
  | succ n ih =>
    intro configs h b hb
    cases configs with
    | nil => simp [registryBatches] at hb
    | cons c rest =>
      rw [registryBatches] at hb
      rcases List.mem_cons.mp hb with hb1 | hb2
      · subst hb1
        constructor
        · exact List.length_take_le BATCH_SIZE (c :: rest)
        · simp [BATCH_SIZE]
      · exact ih ((c :: rest).drop BATCH_SIZE)
          (by simp [BATCH_SIZE] at h ⊢; omega) b hb2

theorem processComponentsInParallel_eq_join_batches
    (process : ComponentConfig → RegResult) :
    ∀ (n : Nat) (configs : List ComponentConfig), configs.length ≤ n →
      processComponentsInParallel process configs
        = ((registryBatches configs).map (fun b => b.map process)).flatten := by
  intro n
  induction n with
  | zero =>
    intro configs h
    cases configs with
    | nil => simp [processComponentsInParallel, registryBatches]
    | cons c rest => simp at h
  | succ n ih =>
    intro configs h
    cases configs with
    | nil => simp [processComponentsInParallel, registryBatches]
    | cons c rest =>
      rw [processComponentsInParallel, registryBatches]
      rw [List.map_cons, List.flatten_cons]
      rw [ih ((c :: rest).drop BATCH_SIZE)
        (by simp [BATCH_SIZE] at h ⊢; omega)]

/-! ## Concrete sample inputs used by witnesses -/

/-- A minimal component schema for concrete registry inputs. -/
def sampleSchema (n : String) : ComponentSchema :=
  { name := n, type := "component", description := "sample", importPath := "@cloudflare/kumo"
    category := "Display", props := [], examples := [], colors := [] }

/-- A concrete cache entry for `n` with hashes `"s"`/`"t"` and version `"3"`. -/
def sampleEntry (n : String) : CacheEntry :=
  { componentName := n, sourceHash := "s", storyHash := "t", cacheVersion := "3"
    generatedAt := 0, metadata := sampleSchema n }

/-- A concrete per-component result. -/
def sampleResult (n : String) : RegResult :=
  { name := n, category := "Display", schema := sampleSchema n, colors := []
    cached := false, cacheEntry := sampleEntry n }

/-- A concrete component config with no variants. -/
def sampleConfig (n : String) : ComponentConfig :=
  { name := n, dirName := "c", sourceDir := "src/components", sourceFile := "c.tsx"
    type := "component", category := "Display", description := "sample"
    variants := [], defaults := [] }

/-- The `size` variant table of the spec's enum-enrichment example. -/
def sizeTable : VariantTable :=
  [("sm", { description := some "Small" }), ("lg", { description := some "Large" })]

/-- A `\x7btype: "string"\x7d` schema definition. -/
def strDefn : Defn :=
  .mk none none (some (.str "string")) none none none none none none none

/-- Union member A of the spec's union-merge example:
`\x7bx: required, y: optional\x7d`. -/
def memberA : Defn :=
  .mk none none none none none none none
    (some [("x", strDefn), ("y", strDefn)]) (some ["x"]) none

/-- Union member B of the spec's union-merge example:
`\x7bx: required, z: required\x7d`. -/
def memberB : Defn :=
  .mk none none none none none none none
    (some [("x", strDefn), ("z", strDefn)]) (some ["x", "z"]) none

/-- `TProps = A | B` (an `anyOf` of the two members). -/
def unionDefn : Defn :=
  .mk none none none none (some [memberA, memberB]) none none none none none

def unionSchema : TsjSchema := { definitions := [("TProps", unionDefn)] }

def unionConfig : ComponentConfig :=
  { name := "T", dirName := "t", sourceDir := "src/components", sourceFile := "t.tsx"
    propsType := some "TProps", type := "component", category := "Display"
    description := "union example", variants := [], defaults := [] }

/-- `UProps = A | B` encoded with `oneOf` (no `anyOf`), the other union
encoding the source accepts via `mainDef.anyOf || mainDef.oneOf`. -/
def oneOfDefn : Defn :=
  .mk none none none none none (some [memberA, memberB]) none none none none

def oneOfSchema : TsjSchema := { definitions := [("UProps", oneOfDefn)] }

def oneOfConfig : ComponentConfig :=
  { name := "U", dirName := "u", sourceDir := "src/components", sourceFile := "u.tsx"
    propsType := some "UProps", type := "component", category := "Display"
    description := "oneOf union example", variants := [], defaults := [] }

/-- A config whose variant table clashes with the universal `className` prop. -/
def clashConfig : ComponentConfig :=
  { name := "Clash", dirName := "clash", sourceDir := "src/components"
    sourceFile := "clash.tsx", type := "component", category := "Display"
    description := "clash example"
    variants := [("className", [("sm", { description := some "Small" })])]
    defaults := [] }

/-! ## Claims -/

/-- C4: a cached component schema is reused (the cache entry is valid) iff the
stored cache version equals the current version AND the stored source hash
equals the fresh source hash AND the stored story hash equals the fresh story
hash; any single mismatch forces regeneration (the cache yields nothing and
the caller regenerates). -/
theorem cache_entry_validity (entry : CacheEntry)
    (sourceHash storyHash currentVersion : String) :
    (isValid entry sourceHash storyHash currentVersion = true
      ↔ entry.cacheVersion = currentVersion ∧ entry.sourceHash = sourceHash
        ∧ entry.storyHash = storyHash)
    ∧ (∀ (cache : CacheFile) (flags : CLIFlags) (name : String) (m : ComponentSchema),
        getCachedComponent name sourceHash storyHash cache currentVersion flags = some m
          → flags.noCache = false ∧ ∃ e, objGet cache.entries name = some e
              ∧ isValid e sourceHash storyHash currentVersion = true
              ∧ m = e.metadata) := by
  constructor
  · simp [isValid, and_assoc]
  · intro cache flags name m h
    unfold getCachedComponent at h
    split at h
    · exact absurd h (by simp)
    · rename_i hnc
      split at h
      · rename_i e he
        split at h
        · rename_i hv
          exact ⟨by simpa using hnc, e, he, hv, by simpa using h.symm⟩
        · exact absurd h (by simp)
      · exact absurd h (by simp)

/-- C4 witness: a concrete matching entry is reused with all three equalities
holding; the validity predicate evaluates to `true` there. -/
theorem cache_entry_validity_witness :
    (isValid (sampleEntry "Button") "s" "t" "3" = true
      ↔ (sampleEntry "Button").cacheVersion = "3"
        ∧ (sampleEntry "Button").sourceHash = "s"
        ∧ (sampleEntry "Button").storyHash = "t")
    ∧ ((CLIFlags.mk false false false).noCache = false
        ∧ ∃ e, objGet [("Button", sampleEntry "Button")] "Button" = some e
            ∧ isValid e "s" "t" "3" = true ∧ sampleSchema "Button" = e.metadata) :=
  ⟨(cache_entry_validity (sampleEntry "Button") "s" "t" "3").1,
    (cache_entry_validity (sampleEntry "Button") "s" "t" "3").2
      { version := "3", entries := [("Button", sampleEntry "Button")] }
      (CLIFlags.mk false false false) "Button" (sampleSchema "Button") rfl⟩

/-- C8: when the Tailwind CLI subprocess of the styles build fails, the
script prints the underlying error and terminates the process with exit
code 1 (non-zero); it never continues. -/
theorem styles_build_fatal_on_css_failure (e : String) :
    compileStandaloneCss (Except.error e)
        = .exited 1 ["❌ Failed to compile standalone CSS: " ++ e]
    ∧ (1 : Nat) ≠ 0
    ∧ ∀ logs, compileStandaloneCss (Except.error e) ≠ .continued logs := by
  refine ⟨rfl, by omega, ?_⟩
  intro logs h
  exact absurd h (by simp [compileStandaloneCss])

/-- C8 witness: a concrete subprocess failure exits with code 1 after
printing the error. -/
theorem styles_build_fatal_on_css_failure_witness :
    compileStandaloneCss (Except.error "tailwind crashed")
        = .exited 1 ["❌ Failed to compile standalone CSS: " ++ "tailwind crashed"]
    ∧ (1 : Nat) ≠ 0
    ∧ ∀ logs, compileStandaloneCss (Except.error "tailwind crashed")
        ≠ .continued logs :=
  styles_build_fatal_on_css_failure "tailwind crashed"

/-- C3: when the property name is a key of the component's variant tables,
the emitted `PropSchema` has `type = "enum"` and `values` equal to the
variant table's option keys in declaration order; and when the name is a key
of the default-variant map, the emitted `PropSchema` carries that default. -/
theorem variant_enrichment_enum_and_default (propName : String) (d : Defn) (r : Bool)
    (variants : List (String × VariantTable)) (defaults : List (String × String))
    (ad : Option (List (String × Defn))) (vd : VariantTable)
    (hv : objGet variants propName = some vd) :
    (convertToPropSchema propName d r (some variants) (some defaults) ad).type = "enum"
    ∧ (convertToPropSchema propName d r (some variants) (some defaults) ad).values
        = some (vd.map (fun kv => kv.1))
    ∧ (∀ dv, objGet defaults propName = some dv →
        (convertToPropSchema propName d r (some variants) (some defaults) ad).default
          = some dv) :=
  ⟨convertToPropSchema_variant_type propName d r variants vd (some defaults) ad hv,
    convertToPropSchema_variant_values propName d r variants vd (some defaults) ad hv,
    fun dv hd => convertToPropSchema_default propName d r (some variants) defaults dv ad hd⟩

/-- C3 witness: the spec's example — variant table `size: \x7bsm, lg\x7d` with
default `size: "sm"` yields `type "enum"`, `values ["sm","lg"]`,
`default "sm"`. -/
theorem variant_enrichment_enum_and_default_witness :
    (convertToPropSchema "size" strDefn false (some [("size", sizeTable)])
        (some [("size", "sm")]) none).type = "enum"
    ∧ (convertToPropSchema "size" strDefn false (some [("size", sizeTable)])
        (some [("size", "sm")]) none).values = some ["sm", "lg"]
    ∧ (convertToPropSchema "size" strDefn false (some [("size", sizeTable)])
        (some [("size", "sm")]) none).default = some "sm" := by
  have h := variant_enrichment_enum_and_default "size" strDefn false
    [("size", sizeTable)] [("size", "sm")] none sizeTable rfl
  exact ⟨h.1, by rw [h.2.1]; rfl, h.2.2 "sm" rfl⟩

/-! ### C7 support: non-emptiness of the per-option maps -/

theorem variantDescriptions_ne_nil_iff (vd : VariantTable) :
    variantDescriptions vd ≠ [] ↔
      ∃ kv ∈ vd, ∃ s, kv.2.description = some s ∧ s ≠ "" := by
  unfold variantDescriptions
  rw [Ne, List.filterMap_eq_nil_iff]
  push_neg
  constructor
  · rintro ⟨kv, hkv, hne⟩
    refine ⟨kv, hkv, ?_⟩
    cases hd : kv.2.description with
    | none => rw [hd] at hne; simp at hne
    | some s =>
      rw [hd] at hne
      by_cases hs : s = ""
      · rw [hs] at hne; simp at hne
      · exact ⟨s, rfl, hs⟩
  · rintro ⟨kv, hkv, s, hd, hs⟩
    exact ⟨kv, hkv, by simp [hd, hs]⟩

theorem variantClasses_ne_nil_iff (vd : VariantTable) :
    variantClasses vd ≠ [] ↔
      ∃ kv ∈ vd, ∃ s, kv.2.classes = some s ∧ s ≠ "" := by
  unfold variantClasses
  rw [Ne, List.filterMap_eq_nil_iff]
  push_neg
  constructor
  · rintro ⟨kv, hkv, hne⟩
    refine ⟨kv, hkv, ?_⟩
    cases hd : kv.2.classes with
    | none => rw [hd] at hne; simp at hne
    | some s =>
      rw [hd] at hne
      by_cases hs : s = ""
      · rw [hs] at hne; simp at hne
      · exact ⟨s, rfl, hs⟩
  · rintro ⟨kv, hkv, s, hd, hs⟩
    exact ⟨kv, hkv, by simp [hd, hs]⟩

theorem variantStateClasses_ne_nil_iff (vd : VariantTable) :
    variantStateClasses vd ≠ [] ↔ ∃ kv ∈ vd, kv.2.stateClasses.isSome := by
  unfold variantStateClasses
  rw [Ne, List.filterMap_eq_nil_iff]
  push_neg
  constructor
  · rintro ⟨kv, hkv, hne⟩
    refine ⟨kv, hkv, ?_⟩
    cases hd : kv.2.stateClasses with
    | none => rw [hd] at hne; simp at hne
    | some m => simp [hd]
  · rintro ⟨kv, hkv, hm⟩
    cases hd : kv.2.stateClasses with
    | none => rw [hd] at hm; simp at hm
    | some m => exact ⟨kv, hkv, by simp [hd]⟩

/-- C7: when enriching a variant-table property, each of the
`descriptions`/`classes`/`stateClasses` maps is attached iff at least one
option of the table defines the corresponding field (a nonempty string for
`descriptions`/`classes`, any object for `stateClasses`); an attached map is
never empty. -/
theorem variant_maps_attached_iff (propName : String) (d : Defn) (r : Bool)
    (variants : List (String × VariantTable)) (defaults : List (String × String))
    (ad : Option (List (String × Defn))) (vd : VariantTable)
    (hv : objGet variants propName = some vd) :
    ((convertToPropSchema propName d r (some variants) (some defaults) ad).descriptions.isSome
      ↔ ∃ kv ∈ vd, ∃ s, kv.2.description = some s ∧ s ≠ "")
    ∧ (convertToPropSchema propName d r (some variants) (some defaults) ad).descriptions
        ≠ some []
    ∧ ((convertToPropSchema propName d r (some variants) (some defaults) ad).classes.isSome
      ↔ ∃ kv ∈ vd, ∃ s, kv.2.classes = some s ∧ s ≠ "")
    ∧ (convertToPropSchema propName d r (some variants) (some defaults) ad).classes
        ≠ some []
    ∧ ((convertToPropSchema propName d r (some variants) (some defaults) ad).stateClasses.isSome
      ↔ ∃ kv ∈ vd, kv.2.stateClasses.isSome)
    ∧ (convertToPropSchema propName d r (some variants) (some defaults) ad).stateClasses
        ≠ some [] := by
  rw [convertToPropSchema_variant_descriptions propName d r variants vd (some defaults) ad hv,
    convertToPropSchema_variant_classes propName d r variants vd (some defaults) ad hv,
    convertToPropSchema_variant_stateClasses propName d r variants vd (some defaults) ad hv]
  refine ⟨?_, ?_, ?_, ?_, ?_, ?_⟩
  · rw [← variantDescriptions_ne_nil_iff]
    by_cases hc : (variantDescriptions vd).length > 0
    · simp [hc, List.length_pos.mp hc]
    · have h0 : variantDescriptions vd = [] :=
        List.length_eq_zero.mp (by omega)
      simp [hc, h0]
  · by_cases hc : (variantDescriptions vd).length > 0
    · simp only [if_pos hc]
      intro hcontra
      rw [Option.some.injEq] at hcontra
      rw [hcontra] at hc
      simp at hc
    · simp [hc]
  · rw [← variantClasses_ne_nil_iff]
    by_cases hc : (variantClasses vd).length > 0
    · simp [hc, List.length_pos.mp hc]
    · have h0 : variantClasses vd = [] :=
        List.length_eq_zero.mp (by omega)
      simp [hc, h0]
  · by_cases hc : (variantClasses vd).length > 0
    · simp only [if_pos hc]
      intro hcontra
      rw [Option.some.injEq] at hcontra
      rw [hcontra] at hc
      simp at hc
    · simp [hc]
  · rw [← variantStateClasses_ne_nil_iff]
    by_cases hc : (variantStateClasses vd).length > 0
    · simp [hc, List.length_pos.mp hc]
    · have h0 : variantStateClasses vd = [] :=
        List.length_eq_zero.mp (by omega)
      simp [hc, h0]
  · by_cases hc : (variantStateClasses vd).length > 0
    · simp only [if_pos hc]
      intro hcontra
      rw [Option.some.injEq] at hcontra
      rw [hcontra] at hc
      simp at hc
    · simp [hc]

/-- C7 witness: in the `size` example only `descriptions` is defined by some
option, so `descriptions` is attached and `classes`/`stateClasses` are
absent. -/
theorem variant_maps_attached_iff_witness :
    ((convertToPropSchema "size" strDefn false (some [("size", sizeTable)])
        (some []) none).descriptions.isSome
      ↔ ∃ kv ∈ sizeTable, ∃ s, kv.2.description = some s ∧ s ≠ "")
    ∧ ((convertToPropSchema "size" strDefn false (some [("size", sizeTable)])
        (some []) none).classes.isSome
      ↔ ∃ kv ∈ sizeTable, ∃ s, kv.2.classes = some s ∧ s ≠ "") := by
  have h := variant_maps_attached_iff "size" strDefn false [("size", sizeTable)]
    [] none sizeTable rfl
  exact ⟨h.1, h.2.2.1⟩

/-! ### Generic lemmas for unconditional `objSet` folds -/

theorem isSome_objGet_foldl_objSet {γ β : Type} (g : String → γ → β)
    (vs : List (String × γ)) (acc : List (String × β)) (k : String) :
    (objGet (vs.foldl (fun props pv => objSet props pv.1 (g pv.1 pv.2)) acc) k).isSome
      ↔ (objGet acc k).isSome ∨ k ∈ vs.map Prod.fst := by
  induction vs generalizing acc with
  | nil => simp
  | cons pv rest ih =>
    rw [List.foldl_cons, ih, isSome_objGet_objSet]
    simp [List.mem_cons, or_assoc]

theorem objGet_foldl_objSet_eq_some {γ β : Type} (g : String → γ → β)
    (vs : List (String × γ)) (acc : List (String × β)) (k : String) (ps : β)
    (h : objGet (vs.foldl (fun props pv => objSet props pv.1 (g pv.1 pv.2)) acc) k
      = some ps) :
    objGet acc k = some ps ∨ ∃ vd, (k, vd) ∈ vs ∧ ps = g k vd := by
  induction vs generalizing acc with
  | nil => exact Or.inl h
  | cons pv rest ih =>
    rw [List.foldl_cons] at h
    rcases ih _ h with h' | ⟨vd, hvd, hps⟩
    · by_cases hk : pv.1 = k
      · subst hk
        rw [objGet_objSet_self] at h'
        exact Or.inr ⟨pv.2, by simp, by simpa using h'.symm⟩
      · rw [objGet_objSet_ne _ _ _ _ (Ne.symm hk)] at h'
        exact Or.inl h'
    · exact Or.inr ⟨vd, List.mem_cons_of_mem _ hvd, hps⟩

/-- `WProps = \x7bx: string (required); y?: string\x7d` as a plain object type. -/
def plainDefn : Defn :=
  .mk none none none none none none none
    (some [("x", strDefn), ("y", strDefn)]) (some ["x"]) none

def plainSchema : TsjSchema := { definitions := [("WProps", plainDefn)] }

def plainConfig : ComponentConfig :=
  { name := "W", dirName := "w", sourceDir := "src/components", sourceFile := "w.tsx"
    propsType := some "WProps", type := "component", category := "Display"
    description := "plain example", variants := [], defaults := [] }

/-- A config declaring the spec's `size` variant table with default `"sm"`. -/
def widgetConfig : ComponentConfig :=
  { name := "Widget", dirName := "widget", sourceDir := "src/components"
    sourceFile := "widget.tsx", type := "component", category := "Display"
    description := "widget example", variants := [("size", sizeTable)]
    defaults := [("size", "sm")] }

/-- C10: every `PropSchema` produced by type-based extraction carries exactly
one of the two flags: `required = true` iff the property is in the computed
required set, `optional = true` otherwise, and the two flags are never both
present. -/
theorem extracted_prop_flags_exactly_one (config : ComponentConfig)
    (skipProp : String → Bool) (schema : TsjSchema)
    (collected : (List (String × Defn)) × List String) (p : String) (ps : PropSchema)
    (hcol : collectedPropsAndRequired config schema = some collected)
    (h : objGet (generatePropsFromTypeCore config skipProp schema) p = some ps) :
    (ps.required = some true ↔ collected.2.contains p = true)
    ∧ (ps.optional = some true ↔ collected.2.contains p = false)
    ∧ ¬ (ps.required.isSome ∧ ps.optional.isSome) := by
  rw [generatePropsFromTypeCore_eq_buildPropsMap config skipProp schema collected hcol] at h
  obtain ⟨hsk, dd, hdd, hps⟩ := objGet_buildPropsMap_eq_some _ _ _ _ _ _ _ h
  subst hps
  rw [convertToPropSchema_required, convertToPropSchema_optional]
  by_cases hc : collected.2.contains p <;> simp [hc]

-- C10 witness: for `WProps = \x7bx: string (required); y?: string\x7d`, the
-- extracted `x` prop carries `required = true`, no `optional`, and `x` is in
-- the computed required list.
unseal jsonSchemaTypeToString jstsList in
theorem extracted_prop_flags_exactly_one_witness :
    (({ type := "string", required := some true : PropSchema }.required = some true
        ↔ ((["x"] : List String).contains "x") = true)
      ∧ ({ type := "string", required := some true : PropSchema }.optional = some true
        ↔ ((["x"] : List String).contains "x") = false)
      ∧ ¬ (({ type := "string", required := some true : PropSchema }.required.isSome
          ∧ { type := "string", required := some true : PropSchema }.optional.isSome))) :=
  extracted_prop_flags_exactly_one plainConfig (fun _ => false) plainSchema
    ([("x", strDefn), ("y", strDefn)], ["x"]) "x"
    { type := "string", required := some true } rfl (by decide)

/-- C5 counterexample: for a component config whose variant tables declare a
property literally named `className`, the fallback's universal
`className: string` prop overwrites the variant-derived enum, so the result
does not contain an enum-typed `PropSchema` for that declared variant
property — the claim, universally quantified over configs, is false. -/
theorem fallback_variant_enum_counterexample :
    ¬ (∀ (config : ComponentConfig) (skipProp : String → Bool) (e : String)
        (pn : String) (vd : VariantTable),
        objGet config.variants pn = some vd →
        ∃ ps, objGet (generatePropsFromType config skipProp (Except.error e)) pn
            = some ps ∧ ps.type = "enum") := by
  intro hclaim
  obtain ⟨ps, hps, hty⟩ := hclaim clashConfig (fun _ => false) "boom" "className"
    [("sm", { description := some "Small" })] rfl
  rw [show objGet (generatePropsFromType clashConfig (fun _ => false)
        (Except.error "boom")) "className"
      = some { type := "string", description := some "Additional CSS classes" }
    from rfl] at hps
  cases hps
  exact absurd hty (by decide)

/-- C5 (amended): when type-based extraction fails for any reason, the Source
Model Reader does not throw and returns the variants-only fallback schema: it
contains an enum-typed `PropSchema` for each declared variant property whose
name differs from the universal `className`/`children` props (which are
written last and take precedence), plus `className: string` and
`children: ReactNode`. -/
theorem fallback_on_extraction_failure (config : ComponentConfig)
    (skipProp : String → Bool) (e : String) :
    generatePropsFromType config skipProp (Except.error e)
        = generatePropsFromVariantsOnly config
    ∧ (∀ pn vd, objGet config.variants pn = some vd →
        pn ≠ "className" → pn ≠ "children" →
        ∃ ps, objGet (generatePropsFromType config skipProp (Except.error e)) pn
            = some ps ∧ ps.type = "enum")
    ∧ objGet (generatePropsFromType config skipProp (Except.error e)) "className"
        = some { type := "string", description := some "Additional CSS classes" }
    ∧ objGet (generatePropsFromType config skipProp (Except.error e)) "children"
        = some { type := "ReactNode", description := some "Child elements" } := by
  refine ⟨rfl, ?_, ?_, ?_⟩
  · intro pn vd hv hcl hch
    show ∃ ps, objGet (generatePropsFromVariantsOnly config) pn = some ps
      ∧ ps.type = "enum"
    unfold generatePropsFromVariantsOnly
    rw [objGet_objSet_ne _ _ _ _ hch, objGet_objSet_ne _ _ _ _ hcl]
    have hsome : (objGet (config.variants.foldl
        (fun props pv => objSet props pv.1 (fallbackVariantProp config pv.1 pv.2)) [])
          pn).isSome := by
      rw [isSome_objGet_foldl_objSet]
      right
      rw [← isSome_objGet_iff_mem, hv]
      rfl
    obtain ⟨ps, hps⟩ := Option.isSome_iff_exists.mp hsome
    refine ⟨ps, hps, ?_⟩
    rcases objGet_foldl_objSet_eq_some (fallbackVariantProp config) _ _ _ _ hps
      with h' | ⟨vd', hvd', hps'⟩
    · simp [objGet] at h'
    · rw [hps']
      rfl
  · show objGet (generatePropsFromVariantsOnly config) "className" = _
    unfold generatePropsFromVariantsOnly
    rw [objGet_objSet_ne _ _ _ _ (by decide), objGet_objSet_self]
  · show objGet (generatePropsFromVariantsOnly config) "children" = _
    unfold generatePropsFromVariantsOnly
    rw [objGet_objSet_self]

/-- C5 witness: for the `Widget` config (variant table `size: \x7bsm, lg\x7d`) and
a failing extraction, the fallback yields an enum `size` prop plus the two
universal props. -/
theorem fallback_on_extraction_failure_witness :
    (∃ ps, objGet (generatePropsFromType widgetConfig (fun _ => false)
        (Except.error "boom")) "size" = some ps ∧ ps.type = "enum")
    ∧ objGet (generatePropsFromType widgetConfig (fun _ => false)
        (Except.error "boom")) "className"
      = some { type := "string", description := some "Additional CSS classes" }
    ∧ objGet (generatePropsFromType widgetConfig (fun _ => false)
        (Except.error "boom")) "children"
      = some { type := "ReactNode", description := some "Child elements" } :=
  ⟨(fallback_on_extraction_failure widgetConfig (fun _ => false) "boom").2.1
      "size" sizeTable rfl (by decide) (by decide),
    (fallback_on_extraction_failure widgetConfig (fun _ => false) "boom").2.2.1,
    (fallback_on_extraction_failure widgetConfig (fun _ => false) "boom").2.2.2⟩

/-- C6: the Parallel Orchestrator maps N configs to exactly N results (the
result list is the per-config results in input order, so every input appears
exactly once), processing the input in fixed-size batches of
`BATCH_SIZE = 8` that partition the input — each batch nonempty, of size at
most 8, and consumed sequentially with results concatenated batch by
batch. -/
theorem parallel_batches_exact (process : ComponentConfig → RegResult)
    (configs : List ComponentConfig) :
    (processComponentsInParallel process configs).length = configs.length
    ∧ processComponentsInParallel process configs = configs.map process
    ∧ (registryBatches configs).flatten = configs
    ∧ (∀ b ∈ registryBatches configs, b.length ≤ BATCH_SIZE ∧ b ≠ [])
    ∧ processComponentsInParallel process configs
        = ((registryBatches configs).map (fun b => b.map process)).flatten := by
  have h1 := processComponentsInParallel_eq_map_bounded process configs.length configs
    le_rfl
  exact ⟨by rw [h1]; simp, h1,
    registryBatches_join configs.length configs le_rfl,
    registryBatches_mem_bound configs.length configs le_rfl,
    processComponentsInParallel_eq_join_batches process configs.length configs le_rfl⟩

-- C6 witness: three concrete configs are processed into their three results
-- in input order.
theorem parallel_batches_exact_witness :
    processComponentsInParallel (fun c => sampleResult c.name)
        [sampleConfig "A", sampleConfig "B", sampleConfig "C"]
      = [sampleConfig "A", sampleConfig "B", sampleConfig "C"].map
          (fun c => sampleResult c.name) :=
  (parallel_batches_exact (fun c => sampleResult c.name)
    [sampleConfig "A", sampleConfig "B", sampleConfig "C"]).2.1

/-! ### C2 support: the sorted `byName` index -/

theorem byName_eq_map_mergeSort (cr br : List RegResult)
    (bf bd : String → List String) (ias : Option StylingMetadata) :
    (generateRegistryCore cr br bf bd ias).registry.search.byName
      = ((cr ++ br).mergeSort (fun a b => decide (a.name ≤ b.name))).map
          RegResult.name := rfl

theorem mergeSort_names_sorted (rs : List RegResult) :
    ((rs.mergeSort (fun a b => decide (a.name ≤ b.name))).map RegResult.name).Sorted
      (· ≤ ·) := by
  have h := @List.sorted_mergeSort RegResult
    (fun a b => decide (a.name ≤ b.name))
    (fun a b c hab hbc => by
      simp only [decide_eq_true_eq] at *
      exact le_trans hab hbc)
    (fun a b => by
      simp only [Bool.or_eq_true, decide_eq_true_eq]
      exact le_total a.name b.name)
    rs
  rw [List.Sorted, List.pairwise_map]
  exact h.imp (fun hab => by simpa using hab)

theorem mergeSort_names_perm (rs : List RegResult) :
    ((rs.mergeSort (fun a b => decide (a.name ≤ b.name))).map RegResult.name).Perm
      (rs.map RegResult.name) :=
  (List.mergeSort_perm rs _).map RegResult.name

/-- C2: the assembled registry's `search.byName` equals the lexicographically
sorted list of the names of all component and block results: it is sorted, a
permutation of all input names, and identical for any two runs whose
combined names agree as multisets — independent of processing/completion
order. -/
theorem registry_byName_sorted_deterministic (cr br cr' br' : List RegResult)
    (bf bd bf' bd' : String → List String) (ias ias' : Option StylingMetadata)
    (hperm : ((cr ++ br).map RegResult.name).Perm
      ((cr' ++ br').map RegResult.name)) :
    ((generateRegistryCore cr br bf bd ias).registry.search.byName.Sorted (· ≤ ·))
    ∧ ((generateRegistryCore cr br bf bd ias).registry.search.byName.Perm
        ((cr ++ br).map RegResult.name))
    ∧ (generateRegistryCore cr br bf bd ias).registry.search.byName
        = (generateRegistryCore cr' br' bf' bd' ias').registry.search.byName := by
  rw [byName_eq_map_mergeSort, byName_eq_map_mergeSort]
  refine ⟨mergeSort_names_sorted _, mergeSort_names_perm _, ?_⟩
  exact List.eq_of_perm_of_sorted
    ((mergeSort_names_perm _).trans (hperm.trans (mergeSort_names_perm _).symm))
    (mergeSort_names_sorted _) (mergeSort_names_sorted _)

-- C2 witness: two concrete runs with the same results supplied in different
-- orders produce the identical byName index.
theorem registry_byName_sorted_deterministic_witness :
    ((([sampleResult "B", sampleResult "A"] ++ [sampleResult "C"]).map
        RegResult.name).Perm
      (([sampleResult "A"] ++ [sampleResult "C", sampleResult "B"]).map
        RegResult.name))
    ∧ (generateRegistryCore [sampleResult "B", sampleResult "A"] [sampleResult "C"]
          (fun _ => []) (fun _ => []) none).registry.search.byName
        = (generateRegistryCore [sampleResult "A"]
            [sampleResult "C", sampleResult "B"]
            (fun _ => []) (fun _ => []) none).registry.search.byName :=
  ⟨by decide,
    (registry_byName_sorted_deterministic
      [sampleResult "B", sampleResult "A"] [sampleResult "C"]
      [sampleResult "A"] [sampleResult "C", sampleResult "B"]
      (fun _ => []) (fun _ => []) (fun _ => []) (fun _ => []) none none
      (by decide)).2.2⟩

/-- C9: when the styling-metadata table has an `InputArea` entry and no
processed result is named `InputArea`, the assembled registry's components
map contains the synthetic `InputArea` schema with an empty props map, while
`InputArea` is absent from both `search.byName` and `search.byType.component`
— so the components map's key set strictly contains the indexed component
names. -/
theorem inputArea_synthetic_entry (cr br : List RegResult)
    (bf bd : String → List String) (sm : StylingMetadata)
    (hni : "InputArea" ∉ (cr ++ br).map RegResult.name) :
    objGet (generateRegistryCore cr br bf bd (some sm)).registry.components
        "InputArea" = some (inputAreaSyntheticSchema sm)
    ∧ (inputAreaSyntheticSchema sm).props = []
    ∧ "InputArea"
        ∉ (generateRegistryCore cr br bf bd (some sm)).registry.search.byName
    ∧ "InputArea"
        ∉ (generateRegistryCore cr br bf bd (some sm)).registry.search.byType.component
    ∧ (∀ n ∈ (generateRegistryCore cr br bf bd (some sm)).registry.search.byType.component,
        (objGet (generateRegistryCore cr br bf bd (some sm)).registry.components
          n).isSome)
    ∧ ∃ k, (objGet (generateRegistryCore cr br bf bd (some sm)).registry.components
          k).isSome
        ∧ k ∉ (generateRegistryCore cr br bf bd (some sm)).registry.search.byType.component := by
  have hcomp : (generateRegistryCore cr br bf bd (some sm)).registry.components
      = objSet ((br.foldl (blockLoopStep bf bd) (cr.foldl componentLoopStep
          { components := [], blocks := [], byCategory := [], byTypeComponent := []
            byTypeBlock := [], componentColors := [], cacheEntries := [] })).components)
        "InputArea" (inputAreaSyntheticSchema sm) := rfl
  have hbtc : (generateRegistryCore cr br bf bd (some sm)).registry.search.byType.component
      = (br.foldl (blockLoopStep bf bd) (cr.foldl componentLoopStep
          { components := [], blocks := [], byCategory := [], byTypeComponent := []
            byTypeBlock := [], componentColors := [], cacheEntries := [] })).byTypeComponent := rfl
  have hbtc2 : (generateRegistryCore cr br bf bd (some sm)).registry.search.byType.component
      = cr.map RegResult.name := by
    rw [hbtc, foldl_blockLoopStep_byTypeComponent, foldl_componentLoopStep_byTypeComponent]
    simp
  have hIA_notin_cr : "InputArea" ∉ cr.map RegResult.name := by
    intro hmem
    exact hni (by rw [List.map_append]; exact List.mem_append_left _ hmem)
  refine ⟨?_, rfl, ?_, ?_, ?_, ?_⟩
  · rw [hcomp, objGet_objSet_self]
  · rw [byName_eq_map_mergeSort]
    intro hmem
    exact hni ((mergeSort_names_perm _).mem_iff.mp hmem)
  · rw [hbtc2]
    exact hIA_notin_cr
  · intro n hn
    rw [hbtc2] at hn
    rw [hcomp, isSome_objGet_objSet]
    left
    rw [foldl_blockLoopStep_components, foldl_componentLoopStep_components_isSome]
    right
    exact hn
  · refine ⟨"InputArea", ?_, ?_⟩
    · rw [hcomp, isSome_objGet_objSet]
      right
      rfl
    · rw [hbtc2]
      exact hIA_notin_cr

-- C9 witness: with one ordinary component result and the InputArea styling
-- entry present, the synthetic schema is in the components map with empty
-- props and is not indexed.
theorem inputArea_synthetic_entry_witness :
    objGet (generateRegistryCore [sampleResult "Input"] [] (fun _ => [])
        (fun _ => []) (some [("height", "auto")])).registry.components "InputArea"
      = some (inputAreaSyntheticSchema [("height", "auto")])
    ∧ (inputAreaSyntheticSchema [("height", "auto")]).props = []
    ∧ "InputArea" ∉ (generateRegistryCore [sampleResult "Input"] [] (fun _ => [])
        (fun _ => []) (some [("height", "auto")])).registry.search.byName
    ∧ "InputArea" ∉ (generateRegistryCore [sampleResult "Input"] [] (fun _ => [])
        (fun _ => []) (some [("height", "auto")])).registry.search.byType.component := by
  have h := inputArea_synthetic_entry [sampleResult "Input"] [] (fun _ => [])
    (fun _ => []) [("height", "auto")] (by decide)
  exact ⟨h.1, h.2.1, h.2.2.1, h.2.2.2.1⟩

/-- C1: when the resolved props type is a union — encoded as `anyOf`, or as
`oneOf` when no `anyOf` is present (the source's `anyOf || oneOf`) — the
emitted property map is exactly the (non-skipped) union of the collected
properties of all union members, and an emitted property is flagged required
iff every union member lists it as required — optional otherwise. -/
theorem union_props_merge (config : ComponentConfig) (skipProp : String → Bool)
    (schema : TsjSchema) (mainDef : Defn) (members : List Defn)
    (hmain : objGet schema.definitions (getPropsType config) = some mainDef)
    (hunion : mainDef.anyOf = some members
      ∨ (mainDef.anyOf = none ∧ mainDef.oneOf = some members))
    (hallOf : mainDef.allOf = none) :
    (∀ p, (objGet (generatePropsFromTypeCore config skipProp schema) p).isSome
      ↔ (skipProp p = false ∧ ∃ m ∈ members,
          (objGet (collectFromParts schema.definitions
            (schema.definitions.length + 1) [m]).1 p).isSome))
    ∧ (∀ p ps, objGet (generatePropsFromTypeCore config skipProp schema) p = some ps →
        ((ps.required = some true ↔ ∀ m ∈ members,
            (collectFromParts schema.definitions
              (schema.definitions.length + 1) [m]).2.contains p = true)
         ∧ (ps.optional = some true ↔ ¬ ∀ m ∈ members,
            (collectFromParts schema.definitions
              (schema.definitions.length + 1) [m]).2.contains p = true))) := by
  have hcol := collectedPropsAndRequired_union config schema mainDef members hmain
    hunion hallOf
  have hcore := generatePropsFromTypeCore_eq_buildPropsMap config skipProp schema _ hcol
  constructor
  · intro p
    rw [hcore, isSome_objGet_buildPropsMap, ← isSome_objGet_iff_mem,
      isSome_objGet_unionMerge_fst]
  · intro p ps h
    rw [hcore] at h
    obtain ⟨hsk, dd, hdd, hps⟩ := objGet_buildPropsMap_eq_some _ _ _ _ _ _ _ h
    subst hps
    rw [convertToPropSchema_required, convertToPropSchema_optional]
    have hkey : (objGet (unionMerge schema.definitions
        (schema.definitions.length + 1) members).1 p).isSome := by
      rw [isSome_objGet_iff_mem]
      exact List.mem_map_of_mem Prod.fst hdd
    have hcontains := unionMerge_required_contains schema.definitions
      (schema.definitions.length + 1) members p
    by_cases hc : (unionMerge schema.definitions
        (schema.definitions.length + 1) members).2.contains p = true
    · have hall := (hcontains.mp hc).2
      rw [if_pos hc, if_pos hc]
      exact ⟨iff_of_true rfl hall, iff_of_false (by simp) (not_not_intro hall)⟩
    · have hnall : ¬ ∀ m ∈ members, (collectFromParts schema.definitions
          (schema.definitions.length + 1) [m]).2.contains p = true :=
        fun hall => hc (hcontains.mpr ⟨hkey, hall⟩)
      rw [if_neg hc, if_neg hc]
      exact ⟨iff_of_false (by simp) hnall, iff_of_true rfl hnall⟩

-- C1 witness: the spec's example — TProps = A | B with
-- A = {x: required, y: optional}, B = {x: required, z: required} — yields
-- props {x, y, z} with x required and y, z optional; the same holds for the
-- oneOf-encoded UProps = A | B.
set_option maxRecDepth 100000 in
unseal collectFromPartsLoop jsonSchemaTypeToString jstsList in
theorem union_props_merge_witness :
    ((objGet (generatePropsFromTypeCore unionConfig (fun _ => false) unionSchema)
        "x").isSome
      ↔ ((fun _ => false : String → Bool) "x" = false
          ∧ ∃ m ∈ [memberA, memberB],
            (objGet (collectFromParts unionSchema.definitions
              (unionSchema.definitions.length + 1) [m]).1 "x").isSome))
    ∧ (objGet (generatePropsFromTypeCore unionConfig (fun _ => false) unionSchema)
        "x").map PropSchema.required = some (some true)
    ∧ (objGet (generatePropsFromTypeCore unionConfig (fun _ => false) unionSchema)
        "y").map PropSchema.optional = some (some true)
    ∧ (objGet (generatePropsFromTypeCore unionConfig (fun _ => false) unionSchema)
        "z").map PropSchema.optional = some (some true)
    ∧ (generatePropsFromTypeCore unionConfig (fun _ => false) unionSchema).map
        Prod.fst = ["x", "y", "z"]
    ∧ ((objGet (generatePropsFromTypeCore oneOfConfig (fun _ => false) oneOfSchema)
        "x").isSome
      ↔ ((fun _ => false : String → Bool) "x" = false
          ∧ ∃ m ∈ [memberA, memberB],
            (objGet (collectFromParts oneOfSchema.definitions
              (oneOfSchema.definitions.length + 1) [m]).1 "x").isSome))
    ∧ (objGet (generatePropsFromTypeCore oneOfConfig (fun _ => false) oneOfSchema)
        "x").map PropSchema.required = some (some true)
    ∧ (objGet (generatePropsFromTypeCore oneOfConfig (fun _ => false) oneOfSchema)
        "y").map PropSchema.optional = some (some true)
    ∧ (objGet (generatePropsFromTypeCore oneOfConfig (fun _ => false) oneOfSchema)
        "z").map PropSchema.optional = some (some true)
    ∧ (generatePropsFromTypeCore oneOfConfig (fun _ => false) oneOfSchema).map
        Prod.fst = ["x", "y", "z"] :=
  ⟨(union_props_merge unionConfig (fun _ => false) unionSchema unionDefn
      [memberA, memberB] rfl (Or.inl rfl) rfl).1 "x",
    by decide, by decide, by decide, by decide,
    (union_props_merge oneOfConfig (fun _ => false) oneOfSchema oneOfDefn
      [memberA, memberB] rfl (Or.inr ⟨rfl, rfl⟩) rfl).1 "x",
    by decide, by decide, by decide, by decide⟩

end Kumo
